import Mathlib

/-!
Shallow embedding of srcfl/zap-flasher (src/flasher.py), the ESP32 sequential
flashing tool.  Pure parts (the extraction patterns of `read_serial_output`,
the classification logic of `process_device`, the CSV bookkeeping of
`append_to_csv` and the run loop of `run_sequential_flashing`) are translated
into executable Lean definitions; the I/O-dependent outcomes of each device
cycle (erase result, flash result, port recovery, serial data read,
rename success, disconnect probes) are supplied as explicit environment data.
-/

namespace ZapFlasher

/-! ### Character classes used by the regexes in `read_serial_output` -/

/-- Python regex `\s` over the ASCII range (lines are already stripped of
unicode whitespace at the edges by `.strip()`). -/
def isSpaceCh (c : Char) : Bool :=
  c == ' ' || c == '\t' || c == '\n' || c == '\r' || c == '\x0b' || c == '\x0c'

/-- Character class `[A-Fa-f0-9]` used by the serial / public-key patterns. -/
def isHexCh (c : Char) : Bool :=
  ('0' ≤ c && c ≤ '9') || ('a' ≤ c && c ≤ 'f') || ('A' ≤ c && c ≤ 'F')

/-- Character class `[A-Za-z0-9._-]` used by the firmware-version pattern. -/
def isVerCh (c : Char) : Bool :=
  ('0' ≤ c && c ≤ '9') || ('a' ≤ c && c ≤ 'z') || ('A' ≤ c && c ≤ 'Z') ||
  c == '.' || c == '_' || c == '-'

/-- Case-insensitive literal match at the head of the text
(`re.IGNORECASE`); the pattern is given in lowercase. -/
def startsWithCI : List Char → List Char → Bool
  | [], _ => true
  | _ :: _, [] => false
  | p :: ps, t :: ts => (p == t.toLower) && startsWithCI ps ts

/-- Case-insensitive substring test, used for the boot-indicator check
(`indicator in line.lower()`). -/
def containsCI (needle : List Char) : List Char → Bool
  | [] => startsWithCI needle []
  | c :: rest => startsWithCI needle (c :: rest) || containsCI needle rest

def dropSpaces (t : List Char) : List Char := t.dropWhile isSpaceCh

/-! ### `re.search` over a line

`searchPat m l` tries the position matcher `m` at every suffix of `l`,
left to right, returning the leftmost capture — the semantics of
`re.search` for the patterns below (whose `\s*` / `{n,}` pieces never
need backtracking because the follow-up classes are disjoint from them). -/

def searchPat (m : List Char → Option (List Char)) : List Char → Option (List Char)
  | [] => m []
  | c :: rest =>
    match m (c :: rest) with
    | some g => some g
    | none => searchPat m rest

/-- Position matcher for `(zap-[A-Fa-f0-9]+)`: the literal `zap-`
(case-insensitively) followed by at least one hex char; the capture keeps
the original characters of the line. -/
def matchZapAt (t : List Char) : Option (List Char) :=
  if startsWithCI ['z', 'a', 'p', '-'] t then
    let hex := (t.drop 4).takeWhile isHexCh
    if hex.isEmpty then none else some (t.take 4 ++ hex)
  else none

/-- Position matcher for `([A-Fa-f0-9]{m,})`: a maximal hex run of length
at least `m` starting here (greedy, as in the Python patterns). -/
def matchHexAtLeast (m : Nat) (t : List Char) : Option (List Char) :=
  let hex := t.takeWhile isHexCh
  if m ≤ hex.length then some hex else none

/-- Position matcher for `([A-Fa-f0-9]{n})`: exactly `n` hex characters
starting here are captured (the character after them is unconstrained). -/
def matchHexExact (n : Nat) (t : List Char) : Option (List Char) :=
  if n ≤ (t.takeWhile isHexCh).length then some (t.take n) else none

/-- Search for `LABEL\s*(<tail>)`: the label matched case-insensitively
anywhere in the line, whitespace skipped, then the tail matcher. -/
def searchLabeled (label : List Char) (tail : List Char → Option (List Char))
    (l : List Char) : Option (List Char) :=
  searchPat
    (fun t =>
      if startsWithCI label t then tail (dropSpaces (t.drop label.length))
      else none) l

/-- The serial-number patterns of `read_serial_output`, tried in priority
order (first match wins), mirroring `serial_patterns`. -/
def findSerial (line : List Char) : Option (List Char) :=
  (searchLabeled "serial number:".data matchZapAt line) <|>
  (searchLabeled "device id:".data matchZapAt line) <|>
  (searchLabeled "serial:".data matchZapAt line) <|>
  (searchPat matchZapAt line)

/-- The public-key patterns of `read_serial_output`, tried in priority
order, mirroring `key_patterns`. -/
def findKey (line : List Char) : Option (List Char) :=
  (searchLabeled "public key:".data (matchHexAtLeast 32) line) <|>
  (searchLabeled "pubkey:".data (matchHexAtLeast 32) line) <|>
  (searchLabeled "key:".data (matchHexAtLeast 32) line) <|>
  (searchPat (matchHexExact 64) line) <|>
  (searchPat (matchHexExact 32) line)

/-- The firmware-version label `firmware version:`. -/
def fwLabel : List Char := "firmware version:".data

/-- Search for `(?<!coex )firmware version:\s*([A-Za-z0-9._-]+)`:
`prevRev` holds the characters before the current position, most recent
first, so the negative lookbehind checks that they do not start with
`" xeoc"` (i.e. `"coex "` reversed), case-insensitively. -/
def findVersionAux : List Char → List Char → Option (List Char)
  | _, [] => none
  | prevRev, c :: rest =>
    (if !(startsWithCI " xeoc".data prevRev) && startsWithCI fwLabel (c :: rest) then
      let tok := (dropSpaces ((c :: rest).drop fwLabel.length)).takeWhile isVerCh
      if tok.isEmpty then none else some tok
    else none) <|> findVersionAux (c :: prevRev) rest

def findVersion (line : List Char) : Option (List Char) :=
  findVersionAux [] line

/-- The boot-indicator substrings of `read_serial_output`. -/
def bootIndicators : List (List Char) :=
  ["app_main".data, "hello world".data, "setup()".data, "ready".data,
   "starting".data, "boot".data, "esp32".data, "chip revision".data]

def hasBootIndicator (line : List Char) : Bool :=
  bootIndicators.any (fun k => containsCI k line)

/-! ### The extraction loop state of `read_serial_output` -/

/-- Python truthiness of an optional string (`None` and `""` are falsy). -/
def truthy : Option String → Bool
  | none => false
  | some s => !(s == "")

/-- The mutable state of the read loop in `read_serial_output`, and the
fields of the dictionary it returns. -/
structure ExtractState where
  device_id : Option String
  public_key : Option String
  firmware_version : Option String
  output_lines : List String
  boot_success : Bool
deriving Repr, DecidableEq

def initExtractState : ExtractState :=
  { device_id := none, public_key := none, firmware_version := none,
    output_lines := [], boot_success := false }

def listToStr (l : List Char) : String := String.mk l

/-- `line.strip()` on the already-decoded text (ASCII whitespace). -/
def stripChars (l : List Char) : List Char :=
  ((l.dropWhile isSpaceCh).reverse.dropWhile isSpaceCh).reverse

def strip (s : String) : String := listToStr (stripChars s.data)

/-- The body of the read loop for one non-empty stripped line: append it to
`output_lines`, then try the boot indicators and the three field pattern
families — each field only while not yet (truthily) found. -/
def processLine (st : ExtractState) (line : String) : ExtractState :=
  let cs := line.data
  let st := { st with output_lines := st.output_lines ++ [line] }
  let st := if hasBootIndicator cs then { st with boot_success := true } else st
  let st :=
    if truthy st.device_id then st
    else
      match findSerial cs with
      | some g => { st with device_id := some (listToStr g) }
      | none => st
  let st :=
    if truthy st.public_key then st
    else
      match findKey cs with
      | some g => { st with public_key := some (listToStr g) }
      | none => st
  let st :=
    if truthy st.firmware_version then st
    else
      match findVersion cs with
      | some g => { st with firmware_version := some (listToStr g) }
      | none => st
  st

/-- `if device_id and public_key and firmware_version: break`. -/
def ExtractState.allFound (st : ExtractState) : Bool :=
  truthy st.device_id && truthy st.public_key && truthy st.firmware_version

/-- One iteration of the read loop on a raw decoded line: strip it and, if
non-empty, process it (`if line: output_lines.append(line); ...`). -/
def lineStep (st : ExtractState) (raw : String) : ExtractState :=
  let line := strip raw
  if line == "" then st else processLine st line

/-- The read loop of `read_serial_output` over the sequence of raw lines the
device produced within the deadline, with the early break once all three
fields are found. -/
def extractLines : ExtractState → List String → ExtractState
  | st, [] => st
  | st, raw :: ls =>
    let line := strip raw
    if line == "" then extractLines st ls
    else
      let st' := processLine st line
      if st'.allFound then st' else extractLines st' ls

/-! ### `process_device`: one device cycle -/

/-- The per-device result dictionary built by `process_device` (the I/O-free
fields; `port` and `timestamp` are opaque I/O data and omitted). -/
structure DeviceResult where
  device_number : Nat
  success : Bool
  serial_number : Option String
  public_key : Option String
  firmware_version : Option String
  output_lines : List String
  errors : List String
  warnings : List String
deriving Repr, DecidableEq

/-- The externally observable steps a device cycle may perform. -/
inductive Step where
  | erase
  | flash
  | readOutput
deriving Repr, DecidableEq

/-- Outcomes of the I/O performed during one device cycle:
`erase_ok` / `flash_ok` are the boolean returns of `erase_flash` /
`flash_firmware`; `port_recovered` says whether `check_port_ready`
succeeded within the post-flash retry loop; `serial_data` is the return of
`read_serial_output` (`none` models its exception path returning `None`). -/
structure CycleEnv where
  erase_ok : Bool
  flash_ok : Bool
  port_recovered : Bool
  serial_data : Option ExtractState
deriving Repr

def eraseWarning : String :=
  "Flash erase failed, but continuing with flashing (this is normal for fresh devices)"

/-- `process_device(port, device_number, erase_first, ...)`: erase
(optional, non-fatal), flash (fatal on failure), wait for the port, read the
serial output and classify.  Also returns the list of steps performed. -/
def process_device (env : CycleEnv) (device_number : Nat) (erase_first : Bool) :
    DeviceResult × List Step :=
  let result : DeviceResult :=
    { device_number := device_number, success := false, serial_number := none,
      public_key := none, firmware_version := none, output_lines := [],
      errors := [], warnings := [] }
  let result :=
    if erase_first && !env.erase_ok then
      { result with warnings := result.warnings ++ [eraseWarning] }
    else result
  let steps := (if erase_first then [Step.erase] else []) ++ [Step.flash]
  if !env.flash_ok then
    ({ result with errors := result.errors ++ ["Firmware flash failed"] }, steps)
  else if !env.port_recovered then
    ({ result with errors := result.errors ++ ["Port not available after flashing"] }, steps)
  else
    let steps := steps ++ [Step.readOutput]
    match env.serial_data with
    | some sd =>
      let result := { result with
        serial_number := sd.device_id,
        public_key := sd.public_key,
        firmware_version := sd.firmware_version,
        output_lines := sd.output_lines }
      if truthy result.serial_number && truthy result.public_key then
        ({ result with success := true }, steps)
      else
        ({ result with errors := result.errors ++
            ["Could not extract serial number or public key from device output"] }, steps)
    | none =>
      ({ result with errors := result.errors ++ ["Failed to read serial output"] }, steps)

/-! ### The CSV record store (`append_to_csv`) and the file system -/

/-- One line of the CSV record store: the header, or one data row (the
three always-blank columns are omitted; `ecc_serial` and `full_public_key`
are the two populated ones). -/
inductive CsvLine where
  | header
  | row (ecc_serial full_public_key : String)
deriving Repr, DecidableEq

def CsvLine.isRow : CsvLine → Bool
  | .header => false
  | .row _ _ => true

/-- The file system visible to the tool: file name to content. -/
def FS : Type := String → Option (List CsvLine)

def emptyFS : FS := fun _ => none

def fsUpdate (fs : FS) (f : String) (v : Option (List CsvLine)) : FS :=
  fun g => if g = f then v else fs g

/-- Observable persistence events of a run. -/
inductive Event where
  | renamed (oldName newName : String) (content : List CsvLine)
  | wrote (file : String) (line : CsvLine)
deriving Repr, DecidableEq

def Event.isRenamed : Event → Bool
  | .renamed _ _ _ => true
  | _ => false

/-- The row written for a successful result
(`result.get('serial_number', '')`, `result.get('public_key', '')`). -/
def mkRowLine (r : DeviceResult) : CsvLine :=
  CsvLine.row (r.serial_number.getD "") (r.public_key.getD "")

/-- `append_to_csv(result, csv_file_path)`: no-op on a non-successful
result; otherwise open in append mode (creating the file), write the header
iff the file did not already exist, then write the one row. -/
def append_to_csv (r : DeviceResult) (path : String) (fs : FS) : FS × List Event :=
  if !r.success then (fs, [])
  else
    match fs path with
    | none =>
      (fsUpdate fs path (some [CsvLine.header, mkRowLine r]),
       [Event.wrote path CsvLine.header, Event.wrote path (mkRowLine r)])
    | some c =>
      (fsUpdate fs path (some (c ++ [mkRowLine r])),
       [Event.wrote path (mkRowLine r)])

/-! ### `run_sequential_flashing`: the outer run loop -/

/-- Per-cycle environment for the run loop: the cycle outcomes plus whether
`Path.rename` would succeed this cycle, and the `check_port_ready` probe
results observed while waiting for disconnection (one probe per 0.5 s
poll). -/
structure RunCycleEnv extends CycleEnv where
  rename_ok : Bool
  disconnect_probes : Nat → Bool

/-- Default `timeout` of `wait_for_device_disconnection`, in seconds. -/
def disconnect_timeout_default : Nat := 120

/-- `wait_for_device_disconnection`: poll `check_port_ready` every 0.5 s;
return `true` at the first not-ready probe, `false` once the budget
(timeout / 0.5 s polls) is exhausted. -/
def wait_for_device_disconnection (probes : Nat → Bool) : Nat → Bool
  | 0 => false
  | n + 1 =>
    if !(probes 0) then true
    else wait_for_device_disconnection (fun i => probes (i + 1)) n

/-- Number of 0.5 s polls within the default 120 s disconnect timeout. -/
def disconnectPollBudget : Nat := 2 * disconnect_timeout_default

/-- The run-scoped mutable state of `run_sequential_flashing`. -/
structure RunState where
  device_number : Nat
  all_results : List DeviceResult
  output_file_base : String
  csv_output_file : String
  firmware_version_found : Bool
  fs : FS

/-- The state at the top of `run_sequential_flashing` (`output_file_base`
already carries the timestamp suffix computed there). -/
def initState (base : String) : RunState :=
  { device_number := 1, all_results := [], output_file_base := base,
    csv_output_file := base ++ ".csv", firmware_version_found := false,
    fs := emptyFS }

/-- `result['firmware_version'].replace('.', '_')`. -/
def versionFileStr (v : Option String) : String :=
  listToStr ((v.getD "").data.map (fun c => if c == '.' then '_' else c))

/-- The versioned CSV name: `f"{output_file_base}_V_{version_str}.csv"`. -/
def newCsvName (base : String) (r : DeviceResult) : String :=
  base ++ "_V_" ++ versionFileStr r.firmware_version ++ ".csv"

/-- `result['success'] and not firmware_version_found and
result.get('firmware_version')`. -/
def switchCond (result : DeviceResult) (s : RunState) : Bool :=
  result.success && !s.firmware_version_found && truthy result.firmware_version

/-- The version-discovery block of the loop (`# Check for version update on
first success`): on the first successful result carrying a firmware
version, rename the CSV file if it exists (best-effort: a failed rename
only warns) and switch `csv_output_file` / `output_file_base` to the
versioned names either way. -/
def versionSwitch (rename_ok : Bool) (result : DeviceResult) (s : RunState) :
    RunState × List Event :=
  if switchCond result s then
    let new_csv_file := newCsvName s.output_file_base result
    let (fs', evs) :=
      match s.fs s.csv_output_file with
      | some c =>
        if rename_ok then
          (fsUpdate (fsUpdate s.fs s.csv_output_file none) new_csv_file (some c),
           [Event.renamed s.csv_output_file new_csv_file c])
        else (s.fs, [])
      | none => (s.fs, [])
    ({ s with
        fs := fs'
        csv_output_file := new_csv_file
        output_file_base := s.output_file_base ++ "_V_" ++ versionFileStr result.firmware_version
        firmware_version_found := true }, evs)
  else (s, [])

/-- One iteration of the `while True` loop in `run_sequential_flashing`:
process the device, record the result, on the first successful result with
a firmware version switch the output files (renaming the existing CSV file
best-effort), append a successful result to the CSV file, then wait for
disconnection.  Returns the new state, the persistence events, and whether
the loop continues. -/
def run_step (erase_first : Bool) (env : RunCycleEnv) (s : RunState) :
    RunState × List Event × Bool :=
  let result := (process_device env.toCycleEnv s.device_number erase_first).1
  let s := { s with all_results := s.all_results ++ [result] }
  let (s, evs) := versionSwitch env.rename_ok result s
  let (fs', evs2) := append_to_csv result s.csv_output_file s.fs
  let s := { s with fs := fs' }
  let keep := wait_for_device_disconnection env.disconnect_probes disconnectPollBudget
  let s := if keep then { s with device_number := s.device_number + 1 } else s
  (s, evs ++ evs2, keep)

/-- Outcome of a run: the final state (whose `all_results` is what
`save_json_results` writes to the summary artifact), the persistence
events in chronological order, and the number of device cycles completed. -/
structure RunOutcome where
  state : RunState
  events : List Event
  consumed : Nat

/-- The run loop over a script of cycle environments; an exhausted script
models the operator's `KeyboardInterrupt`, a `false` from
`wait_for_device_disconnection` breaks out of the loop. -/
def runAux (erase_first : Bool) : List RunCycleEnv → RunState → RunOutcome
  | [], s => { state := s, events := [], consumed := 0 }
  | env :: rest, s =>
    let (s', evs, keep) := run_step erase_first env s
    if keep then
      let out := runAux erase_first rest s'
      { state := out.state, events := evs ++ out.events, consumed := out.consumed + 1 }
    else { state := s', events := evs, consumed := 1 }

def run_sequential_flashing (erase_first : Bool) (script : List RunCycleEnv)
    (base : String) : RunOutcome :=
  runAux erase_first script (initState base)

/-! ### Permissive byte decoding (`decode('utf-8', errors='ignore')`) -/

def isContByte (b : Nat) : Bool := 0x80 ≤ b && b ≤ 0xBF

/-- Valid first continuation byte of a three-byte sequence led by `b`
(excluding overlong encodings and surrogates, as CPython does). -/
def cont1Valid3 (b c1 : Nat) : Bool :=
  if b = 0xE0 then 0xA0 ≤ c1 && c1 ≤ 0xBF
  else if b = 0xED then 0x80 ≤ c1 && c1 ≤ 0x9F
  else isContByte c1

/-- Valid first continuation byte of a four-byte sequence led by `b`. -/
def cont1Valid4 (b c1 : Nat) : Bool :=
  if b = 0xF0 then 0x90 ≤ c1 && c1 ≤ 0xBF
  else if b = 0xF4 then 0x80 ≤ c1 && c1 ≤ 0x8F
  else isContByte c1

/-- One decoding attempt at lead byte `b` followed by `rest`: the decoded
character (or `none` for an ill-formed maximal subpart, which is ignored)
and how many bytes of `rest` were consumed beyond `b`. -/
def utf8Step (b : Nat) (rest : List Nat) : Option Char × Nat :=
  if b ≤ 0x7F then (some (Char.ofNat b), 0)
  else if 0xC2 ≤ b && b ≤ 0xDF then
    match rest with
    | c1 :: _ =>
      if isContByte c1 then (some (Char.ofNat ((b - 0xC0) * 0x40 + (c1 - 0x80))), 1)
      else (none, 0)
    | [] => (none, 0)
  else if 0xE0 ≤ b && b ≤ 0xEF then
    match rest with
    | c1 :: c2 :: _ =>
      if cont1Valid3 b c1 then
        if isContByte c2 then
          (some (Char.ofNat ((b - 0xE0) * 0x1000 + (c1 - 0x80) * 0x40 + (c2 - 0x80))), 2)
        else (none, 1)
      else (none, 0)
    | [c1] => if cont1Valid3 b c1 then (none, 1) else (none, 0)
    | [] => (none, 0)
  else if 0xF0 ≤ b && b ≤ 0xF4 then
    match rest with
    | c1 :: c2 :: c3 :: _ =>
      if cont1Valid4 b c1 then
        if isContByte c2 then
          if isContByte c3 then
            (some (Char.ofNat ((b - 0xF0) * 0x40000 + (c1 - 0x80) * 0x1000 +
                (c2 - 0x80) * 0x40 + (c3 - 0x80))), 3)
          else (none, 2)
        else (none, 1)
      else (none, 0)
    | [c1, c2] =>
      if cont1Valid4 b c1 then (if isContByte c2 then (none, 2) else (none, 1))
      else (none, 0)
    | [c1] => if cont1Valid4 b c1 then (none, 1) else (none, 0)
    | [] => (none, 0)
  else (none, 0)

/-- UTF-8 decoding with `errors='ignore'`: well-formed sequences decode
to their scalar value, ill-formed maximal subparts are dropped (no
replacement character, no error), truncated trailing sequences are
dropped. -/
def utf8DecodeIgnore : List Nat → List Char
  | [] => []
  | b :: rest =>
    match utf8Step b rest with
    | (some ch, k) => ch :: utf8DecodeIgnore (rest.drop k)
    | (none, k) => utf8DecodeIgnore (rest.drop k)
termination_by l => l.length
decreasing_by
  all_goals simp [List.length_drop]; omega

/-! ### Structural lemmas about `process_device` -/

lemma process_device_success (env : CycleEnv) (n : Nat) (ef : Bool) :
    (process_device env n ef).1.success =
      (env.flash_ok && env.port_recovered &&
        match env.serial_data with
        | some sd => truthy sd.device_id && truthy sd.public_key
        | none => false) := by
  obtain ⟨eo, fo, pr, sd⟩ := env
  cases sd with
  | none => cases fo <;> cases pr <;> cases ef <;> cases eo <;> simp [process_device]
  | some s =>
    cases fo <;> cases pr <;> cases ef <;> cases eo <;>
      simp [process_device] <;> split <;> simp_all

lemma process_device_serial_number (env : CycleEnv) (n : Nat) (ef : Bool) :
    (process_device env n ef).1.serial_number =
      (if env.flash_ok && env.port_recovered then
        env.serial_data.bind ExtractState.device_id
      else none) := by
  obtain ⟨eo, fo, pr, sd⟩ := env
  cases sd with
  | none => cases fo <;> cases pr <;> cases ef <;> cases eo <;> simp [process_device]
  | some s =>
    cases fo <;> cases pr <;> cases ef <;> cases eo <;>
      simp [process_device] <;> split <;> simp_all

lemma process_device_public_key (env : CycleEnv) (n : Nat) (ef : Bool) :
    (process_device env n ef).1.public_key =
      (if env.flash_ok && env.port_recovered then
        env.serial_data.bind ExtractState.public_key
      else none) := by
  obtain ⟨eo, fo, pr, sd⟩ := env
  cases sd with
  | none => cases fo <;> cases pr <;> cases ef <;> cases eo <;> simp [process_device]
  | some s =>
    cases fo <;> cases pr <;> cases ef <;> cases eo <;>
      simp [process_device] <;> split <;> simp_all

lemma process_device_firmware_version (env : CycleEnv) (n : Nat) (ef : Bool) :
    (process_device env n ef).1.firmware_version =
      (if env.flash_ok && env.port_recovered then
        env.serial_data.bind ExtractState.firmware_version
      else none) := by
  obtain ⟨eo, fo, pr, sd⟩ := env
  cases sd with
  | none => cases fo <;> cases pr <;> cases ef <;> cases eo <;> simp [process_device]
  | some s =>
    cases fo <;> cases pr <;> cases ef <;> cases eo <;>
      simp [process_device] <;> split <;> simp_all

lemma process_device_warnings (env : CycleEnv) (n : Nat) (ef : Bool) :
    (process_device env n ef).1.warnings =
      (if ef && !env.erase_ok then [eraseWarning] else []) := by
  obtain ⟨eo, fo, pr, sd⟩ := env
  cases sd with
  | none => cases fo <;> cases pr <;> cases ef <;> cases eo <;> simp [process_device]
  | some s =>
    cases fo <;> cases pr <;> cases ef <;> cases eo <;>
      simp [process_device] <;> split <;> simp_all

lemma process_device_errors_flash (env : CycleEnv) (n : Nat) (ef : Bool)
    (h : env.flash_ok = false) :
    (process_device env n ef).1.errors = ["Firmware flash failed"] := by
  obtain ⟨eo, fo, pr, sd⟩ := env
  cases fo with
  | true => simp at h
  | false => cases sd <;> cases pr <;> cases ef <;> cases eo <;> simp [process_device]

lemma process_device_steps (env : CycleEnv) (n : Nat) (ef : Bool) :
    (process_device env n ef).2 =
      (if ef then [Step.erase] else []) ++ [Step.flash] ++
        (if env.flash_ok && env.port_recovered then [Step.readOutput] else []) := by
  obtain ⟨eo, fo, pr, sd⟩ := env
  cases sd with
  | none => cases fo <;> cases pr <;> cases ef <;> cases eo <;> simp [process_device]
  | some s =>
    cases fo <;> cases pr <;> cases ef <;> cases eo <;>
      simp [process_device] <;> split <;> simp_all

/-! ### Claim theorems: `process_device` classification -/

/-- C1: for every completed device cycle the produced `DeviceResult` has
`success = true` iff both its `serial_number` and its `public_key` fields
are non-empty (non-`None`); varying `firmware_version` in the extracted
data never changes the classification, and an extraction that returns no
data (`read_serial_output` returning `None`) yields `success = false`. -/
theorem C1_success_iff_fields (env : CycleEnv) (n : Nat) (ef : Bool) :
    ((process_device env n ef).1.success =
      (truthy (process_device env n ef).1.serial_number &&
       truthy (process_device env n ef).1.public_key)) ∧
    (∀ v,
      (process_device
        { env with serial_data :=
            env.serial_data.map (fun sd => { sd with firmware_version := v }) }
        n ef).1.success = (process_device env n ef).1.success) ∧
    (env.serial_data = none → (process_device env n ef).1.success = false) := by
  refine ⟨?_, ?_, ?_⟩
  · rw [process_device_success, process_device_serial_number, process_device_public_key]
    cases h : (env.flash_ok && env.port_recovered) <;> cases hs : env.serial_data <;>
      simp [truthy]
  · intro v
    rw [process_device_success, process_device_success]
    cases hs : env.serial_data <;> simp
  · intro h
    rw [process_device_success, h]
    simp

/-- Witness for C1 at a concrete cycle with a failed extraction. -/
theorem C1_success_iff_fields_witness :
    (process_device
      { erase_ok := true, flash_ok := true, port_recovered := true, serial_data := none }
      1 true).1.success = false :=
  (C1_success_iff_fields
    { erase_ok := true, flash_ok := true, port_recovered := true, serial_data := none }
    1 true).2.2 rfl

/-- The 64-character hex key of the spec's worked example. -/
def hexA64 : String := String.mk (List.replicate 64 'a')

/-- Extraction data in which all three fields were found. -/
def sdFull : ExtractState :=
  { device_id := some "zap-00ff", public_key := some hexA64,
    firmware_version := some "1.2.3", output_lines := ["x"], boot_success := true }

/-- C4: with the erase step enabled, an erase failure is non-fatal: the
warning list is non-empty, the programming step still runs, a subsequently
successful programming and extraction still classifies the cycle
`success = true` (with the non-empty warnings), and the `success`
classification never depends on the erase outcome. -/
theorem C4_erase_failure_nonfatal (env : CycleEnv) (n : Nat)
    (he : env.erase_ok = false) :
    (process_device env n true).1.warnings ≠ [] ∧
    Step.flash ∈ (process_device env n true).2 ∧
    (∀ sd, env.serial_data = some sd → env.flash_ok = true →
      env.port_recovered = true → truthy sd.device_id = true →
      truthy sd.public_key = true → (process_device env n true).1.success = true) ∧
    (process_device env n true).1.success =
      (process_device { env with erase_ok := true } n true).1.success := by
  refine ⟨?_, ?_, ?_, ?_⟩
  · rw [process_device_warnings, he]
    simp
  · rw [process_device_steps]
    simp
  · intro sd hsd hf hp h1 h2
    rw [process_device_success, hsd, hf, hp]
    simp [h1, h2]
  · rw [process_device_success, process_device_success]

/-- Witness for C4: erase fails, everything else succeeds. -/
theorem C4_erase_failure_nonfatal_witness :
    (process_device
      { erase_ok := false, flash_ok := true, port_recovered := true,
        serial_data := some sdFull } 2 true).1.success = true :=
  (C4_erase_failure_nonfatal
    { erase_ok := false, flash_ok := true, port_recovered := true,
      serial_data := some sdFull } 2 rfl).2.2.1 sdFull rfl rfl rfl (by decide) (by decide)

/-- C5: if the programming (write) step fails the cycle aborts: an error is
recorded, the result is returned with `success = false`, and no read of the
device output is attempted. -/
theorem C5_flash_failure_fatal (env : CycleEnv) (n : Nat) (ef : Bool)
    (hf : env.flash_ok = false) :
    (process_device env n ef).1.errors ≠ [] ∧
    (process_device env n ef).1.success = false ∧
    Step.readOutput ∉ (process_device env n ef).2 := by
  refine ⟨?_, ?_, ?_⟩
  · rw [process_device_errors_flash env n ef hf]
    simp
  · rw [process_device_success, hf]
    simp
  · rw [process_device_steps, hf]
    cases ef <;> simp

/-- Witness for C5 at a concrete cycle whose flash step fails. -/
theorem C5_flash_failure_fatal_witness :
    (process_device
      { erase_ok := true, flash_ok := false, port_recovered := true,
        serial_data := some sdFull } 1 false).1.success = false :=
  (C5_flash_failure_fatal
    { erase_ok := true, flash_ok := false, port_recovered := true,
      serial_data := some sdFull } 1 false rfl).2.1

/-! ### Structural lemmas about `processLine` -/

lemma processLine_device_id_found (st : ExtractState) (line : String)
    (h : truthy st.device_id = true) :
    (processLine st line).device_id = st.device_id := by
  simp only [processLine]
  repeat' split
  all_goals simp_all

lemma processLine_public_key_found (st : ExtractState) (line : String)
    (h : truthy st.public_key = true) :
    (processLine st line).public_key = st.public_key := by
  simp only [processLine]
  repeat' split
  all_goals simp_all

lemma processLine_firmware_version_found (st : ExtractState) (line : String)
    (h : truthy st.firmware_version = true) :
    (processLine st line).firmware_version = st.firmware_version := by
  simp only [processLine]
  repeat' split
  all_goals simp_all

lemma processLine_output_lines (st : ExtractState) (line : String) :
    (processLine st line).output_lines = st.output_lines ++ [line] := by
  simp only [processLine]
  repeat' split
  all_goals simp_all

/-! ### Claim theorems: extraction -/

/-- The worked example input of the spec. -/
def c3Input : List String :=
  ["booting", "Serial Number: zap-00ff", "coex firmware version: 831ec70",
   "firmware version: 1.2.3", "Public Key: " ++ hexA64]

/-- C3: on the given line sequence, extraction finds serial `zap-00ff`,
firmware version `1.2.3` (the line with the excluded `coex ` prefix is not
matched) and the 64-character key; moreover each field, once truthily
found, is never re-sought on later lines. -/
theorem C3_extraction_example :
    ((extractLines initExtractState c3Input).device_id = some "zap-00ff" ∧
     (extractLines initExtractState c3Input).firmware_version = some "1.2.3" ∧
     (extractLines initExtractState c3Input).firmware_version ≠ some "831ec70" ∧
     (extractLines initExtractState c3Input).public_key = some hexA64) ∧
    (∀ st line, truthy st.device_id = true →
      (processLine st line).device_id = st.device_id) ∧
    (∀ st line, truthy st.public_key = true →
      (processLine st line).public_key = st.public_key) ∧
    (∀ st line, truthy st.firmware_version = true →
      (processLine st line).firmware_version = st.firmware_version) :=
  ⟨by refine ⟨by decide, by decide, by decide, by decide⟩,
   processLine_device_id_found, processLine_public_key_found,
   processLine_firmware_version_found⟩

/-- Witness for C3: the persistence parts applied at a concrete state. -/
theorem C3_extraction_example_witness :
    (processLine { initExtractState with device_id := some "zap-00ff" }
        "serial: zap-1234").device_id = some "zap-00ff" :=
  (C3_extraction_example).2.1
    { initExtractState with device_id := some "zap-00ff" } "serial: zap-1234" (by decide)

/-! ### Claim theorems: permissive decoding and line accumulation (C9) -/

lemma utf8Step_invalid_cont (b : Nat) (rest : List Nat)
    (h1 : 0x80 ≤ b) (h2 : b ≤ 0xC1) : utf8Step b rest = (none, 0) := by
  unfold utf8Step
  split_ifs with a1 a2 a3 a4 <;> first
    | rfl
    | (exfalso; simp only [Bool.and_eq_true, decide_eq_true_eq] at *; omega)

lemma utf8Step_invalid_high (b : Nat) (rest : List Nat)
    (h1 : 0xF5 ≤ b) : utf8Step b rest = (none, 0) := by
  unfold utf8Step
  split_ifs with a1 a2 a3 a4 <;> first
    | rfl
    | (exfalso; simp only [Bool.and_eq_true, decide_eq_true_eq] at *; omega)

lemma utf8DecodeIgnore_cons_dropped (b : Nat) (rest : List Nat)
    (h : utf8Step b rest = (none, 0)) :
    utf8DecodeIgnore (b :: rest) = utf8DecodeIgnore rest := by
  rw [utf8DecodeIgnore.eq_def]
  simp [h]

/-- C9 (counterexample to the claim as stated): the code decodes with
`errors='ignore'`, so the invalid byte `0xFF` in `[0x41, 0xFF, 0x42]` is
dropped — the result is `"AB"`, not `"A<replacement>B"` — and a read line
consisting only of whitespace is stripped to empty and *not* accumulated
into `output_lines`. -/
theorem C9_counterexample :
    utf8DecodeIgnore [0x41, 0xFF, 0x42] = ['A', 'B'] ∧
    utf8DecodeIgnore [0x41, 0xFF, 0x42] ≠ ['A', Char.ofNat 0xFFFD, 'B'] ∧
    (extractLines initExtractState ["   ", "hello"]).output_lines = ["hello"] ∧
    (extractLines initExtractState ["   ", "hello"]).output_lines ≠ ["   ", "hello"] := by
  have h : utf8DecodeIgnore [0x41, 0xFF, 0x42] = ['A', 'B'] := by
    simp [utf8DecodeIgnore, utf8Step, isContByte, cont1Valid3, cont1Valid4]
  refine ⟨h, ?_, by decide, by decide⟩
  rw [h]
  decide

/-- C9 (amended): decoding is permissive and never fatal — invalid bytes
are dropped (ignored), not replaced — and every line whose stripped text is
non-empty is accumulated into `output_lines` regardless of whether it
matches any extraction pattern, while whitespace-only lines are skipped. -/
theorem C9_decoding_and_accumulation :
    (∀ b rest, 0x80 ≤ b → b ≤ 0xC1 →
      utf8DecodeIgnore (b :: rest) = utf8DecodeIgnore rest) ∧
    (∀ b rest, 0xF5 ≤ b →
      utf8DecodeIgnore (b :: rest) = utf8DecodeIgnore rest) ∧
    (∀ st raw, strip raw ≠ "" →
      (lineStep st raw).output_lines = st.output_lines ++ [strip raw]) ∧
    (∀ st raw, strip raw = "" → (lineStep st raw).output_lines = st.output_lines) := by
  refine ⟨?_, ?_, ?_, ?_⟩
  · intro b rest h1 h2
    exact utf8DecodeIgnore_cons_dropped b rest (utf8Step_invalid_cont b rest h1 h2)
  · intro b rest h1
    exact utf8DecodeIgnore_cons_dropped b rest (utf8Step_invalid_high b rest h1)
  · intro st raw h
    rw [lineStep]
    simp only [beq_iff_eq, if_neg h]
    exact processLine_output_lines st (strip raw)
  · intro st raw h
    rw [lineStep]
    simp [h]

/-- Witness for C9 (amended) at a concrete byte and a concrete line. -/
theorem C9_decoding_and_accumulation_witness :
    utf8DecodeIgnore [0xFF, 0x42] = utf8DecodeIgnore [0x42] ∧
    (lineStep initExtractState "hello").output_lines =
      initExtractState.output_lines ++ [strip "hello"] :=
  ⟨C9_decoding_and_accumulation.2.1 0xFF [0x42] (by decide),
   C9_decoding_and_accumulation.2.2.1 initExtractState "hello" (by decide)⟩

/-! ### Run-level observations: rows written, file-system well-formedness -/

/-- The data rows among a run's persistence events, in order. -/
def rowEvents (evs : List Event) : List CsvLine :=
  evs.filterMap (fun e =>
    match e with
    | Event.wrote _ (CsvLine.row a b) => some (CsvLine.row a b)
    | _ => none)

/-- Every existing file starts with exactly one header followed by data
rows only. -/
def wfFS (fs : FS) : Prop :=
  ∀ f c, fs f = some c →
    ∃ rows, c = CsvLine.header :: rows ∧ rows.all CsvLine.isRow = true

/-- `seqFrom s n = [s, s+1, ..., s+n-1]`. -/
def seqFrom (start : Nat) : Nat → List Nat
  | 0 => []
  | n + 1 => start :: seqFrom (start + 1) n

lemma rowEvents_append (a b : List Event) :
    rowEvents (a ++ b) = rowEvents a ++ rowEvents b := by
  simp [rowEvents]

lemma process_device_number (env : CycleEnv) (n : Nat) (ef : Bool) :
    (process_device env n ef).1.device_number = n := by
  obtain ⟨eo, fo, pr, sd⟩ := env
  cases sd with
  | none => cases fo <;> cases pr <;> cases ef <;> cases eo <;> simp [process_device]
  | some s =>
    cases fo <;> cases pr <;> cases ef <;> cases eo <;>
      simp [process_device] <;> split <;> simp_all

/-! ### Lemmas about `versionSwitch` -/

lemma versionSwitch_all_results (ro : Bool) (r : DeviceResult) (s : RunState) :
    (versionSwitch ro r s).1.all_results = s.all_results := by
  unfold versionSwitch
  repeat' split
  all_goals simp_all

lemma versionSwitch_device_number (ro : Bool) (r : DeviceResult) (s : RunState) :
    (versionSwitch ro r s).1.device_number = s.device_number := by
  unfold versionSwitch
  repeat' split
  all_goals simp_all

lemma versionSwitch_rowEvents (ro : Bool) (r : DeviceResult) (s : RunState) :
    rowEvents (versionSwitch ro r s).2 = [] := by
  unfold versionSwitch
  repeat' split
  all_goals simp_all [rowEvents]

lemma versionSwitch_wfFS (ro : Bool) (r : DeviceResult) (s : RunState)
    (h : wfFS s.fs) : wfFS (versionSwitch ro r s).1.fs := by
  unfold versionSwitch
  split
  · split
    · split
      · rename_i c heq hro
        intro f c' hf
        simp only [fsUpdate] at hf
        split_ifs at hf with h1 h2
        · cases hf
          exact h _ _ heq
        all_goals first
          | exact Option.noConfusion hf
          | exact h _ _ hf
      · exact h
    · exact h
  · exact h

/-- When the version flag is already set the block does nothing. -/
lemma versionSwitch_found (ro : Bool) (r : DeviceResult) (s : RunState)
    (h : s.firmware_version_found = true) : versionSwitch ro r s = (s, []) := by
  have hc : switchCond r s = false := by simp [switchCond, h]
  unfold versionSwitch
  rw [hc]
  simp

/-! ### Lemmas about `append_to_csv` -/

lemma append_to_csv_rowEvents (r : DeviceResult) (path : String) (fs : FS) :
    rowEvents (append_to_csv r path fs).2 =
      (if r.success then [mkRowLine r] else []) := by
  unfold append_to_csv
  repeat' split
  all_goals simp_all [rowEvents, mkRowLine]

lemma append_to_csv_wfFS (r : DeviceResult) (path : String) (fs : FS)
    (h : wfFS fs) : wfFS (append_to_csv r path fs).1 := by
  unfold append_to_csv
  repeat' split
  · exact h
  · intro f c' hf
    simp only [fsUpdate] at hf
    split_ifs at hf with h1
    · exact ⟨[mkRowLine r], by simp_all [mkRowLine, CsvLine.isRow]⟩
    · exact h _ _ hf
  next c heq =>
    intro f c' hf
    simp only [fsUpdate] at hf
    split_ifs at hf with h1
    · obtain ⟨rows, hc, hr⟩ := h _ _ heq
      refine ⟨rows ++ [mkRowLine r], ?_, ?_⟩
      · simp_all
      · simp_all [mkRowLine, CsvLine.isRow]
    · exact h _ _ hf

/-- Appending to an existing file only adds data rows to its content. -/
lemma append_to_csv_fs_at (r : DeviceResult) (path : String) (fs : FS)
    (c : List CsvLine) (h : fs path = some c) :
    ∃ rows, (append_to_csv r path fs).1 path = some (c ++ rows) ∧
      rows.all CsvLine.isRow = true := by
  unfold append_to_csv
  rw [h]
  split
  · exact ⟨[], by simp [h]⟩
  · exact ⟨[mkRowLine r], by simp [fsUpdate, mkRowLine, CsvLine.isRow]⟩

/-! ### Lemmas about `run_step` -/

lemma run_step_spec (ef : Bool) (env : RunCycleEnv) (s : RunState) :
    (run_step ef env s).1.all_results =
      s.all_results ++ [(process_device env.toCycleEnv s.device_number ef).1] ∧
    (run_step ef env s).2.2 =
      wait_for_device_disconnection env.disconnect_probes disconnectPollBudget ∧
    (run_step ef env s).1.device_number =
      (if (run_step ef env s).2.2 then s.device_number + 1 else s.device_number) ∧
    rowEvents (run_step ef env s).2.1 =
      (if (process_device env.toCycleEnv s.device_number ef).1.success then
        [mkRowLine (process_device env.toCycleEnv s.device_number ef).1]
      else []) := by
  have hvsa := versionSwitch_all_results env.rename_ok
    (process_device env.toCycleEnv s.device_number ef).1
    { s with all_results :=
        s.all_results ++ [(process_device env.toCycleEnv s.device_number ef).1] }
  have hvsd := versionSwitch_device_number env.rename_ok
    (process_device env.toCycleEnv s.device_number ef).1
    { s with all_results :=
        s.all_results ++ [(process_device env.toCycleEnv s.device_number ef).1] }
  have hvse := versionSwitch_rowEvents env.rename_ok
    (process_device env.toCycleEnv s.device_number ef).1
    { s with all_results :=
        s.all_results ++ [(process_device env.toCycleEnv s.device_number ef).1] }
  simp only [run_step]
  rcases hvs : versionSwitch env.rename_ok
      (process_device env.toCycleEnv s.device_number ef).1
      { s with all_results :=
          s.all_results ++ [(process_device env.toCycleEnv s.device_number ef).1] }
    with ⟨s2, evs⟩
  rw [hvs] at hvsa hvsd hvse
  have happr := append_to_csv_rowEvents
    (process_device env.toCycleEnv s.device_number ef).1 s2.csv_output_file s2.fs
  simp only [hvs]
  rcases happ : append_to_csv (process_device env.toCycleEnv s.device_number ef).1
      s2.csv_output_file s2.fs with ⟨fs2, evs2⟩
  rw [happ] at happr
  simp only [happ]
  cases hk : wait_for_device_disconnection env.disconnect_probes disconnectPollBudget <;>
    simp_all [rowEvents_append]

lemma run_step_wfFS (ef : Bool) (env : RunCycleEnv) (s : RunState)
    (h : wfFS s.fs) : wfFS (run_step ef env s).1.fs := by
  simp only [run_step]
  rcases hvs : versionSwitch env.rename_ok
      (process_device env.toCycleEnv s.device_number ef).1
      { s with all_results :=
          s.all_results ++ [(process_device env.toCycleEnv s.device_number ef).1] }
    with ⟨s2, evs⟩
  have hw : wfFS s2.fs := by
    have hx := versionSwitch_wfFS env.rename_ok
      (process_device env.toCycleEnv s.device_number ef).1
      { s with all_results :=
          s.all_results ++ [(process_device env.toCycleEnv s.device_number ef).1] } h
    rw [hvs] at hx
    exact hx
  simp only [hvs]
  rcases happ : append_to_csv (process_device env.toCycleEnv s.device_number ef).1
      s2.csv_output_file s2.fs with ⟨fs2, evs2⟩
  have hw2 : wfFS fs2 := by
    have hx := append_to_csv_wfFS (process_device env.toCycleEnv s.device_number ef).1
      s2.csv_output_file s2.fs hw
    rw [happ] at hx
    exact hx
  simp only [happ]
  cases hk : wait_for_device_disconnection env.disconnect_probes disconnectPollBudget <;>
    simp_all

/-! ### The run induction lemma -/

lemma runAux_spec (ef : Bool) (script : List RunCycleEnv) :
    ∀ s : RunState,
      ∃ new : List DeviceResult,
        (runAux ef script s).state.all_results = s.all_results ++ new ∧
        new.length = (runAux ef script s).consumed ∧
        new.map DeviceResult.device_number = seqFrom s.device_number new.length ∧
        rowEvents (runAux ef script s).events =
          (new.filter (fun r => r.success)).map mkRowLine ∧
        (wfFS s.fs → wfFS (runAux ef script s).state.fs) := by
  induction script with
  | nil =>
    intro s
    exact ⟨[], by simp [runAux, rowEvents, seqFrom]⟩
  | cons env rest ih =>
    intro s
    obtain ⟨h1, h2, h3, h4⟩ := run_step_spec ef env s
    have hwf := run_step_wfFS ef env s
    simp only [runAux]
    rcases hstep : run_step ef env s with ⟨s', evs, keep⟩
    rw [hstep] at h1 h2 h3 h4 hwf
    simp only [hstep]
    cases keep with
    | false =>
      refine ⟨[(process_device env.toCycleEnv s.device_number ef).1], ?_, ?_, ?_, ?_, ?_⟩
      · exact h1
      · rfl
      · show _ = seqFrom s.device_number 1
        simp [seqFrom, process_device_number]
      · show rowEvents evs = _
        rw [h4]
        cases hs : (process_device env.toCycleEnv s.device_number ef).1.success <;>
          simp [hs]
      · exact fun hw => hwf hw
    | true =>
      obtain ⟨new', g1, g2, g3, g4, g5⟩ := ih s'
      have hdn : s'.device_number = s.device_number + 1 := by simpa using h3
      refine ⟨(process_device env.toCycleEnv s.device_number ef).1 :: new', ?_, ?_, ?_, ?_, ?_⟩
      · show (runAux ef rest s').state.all_results = _
        rw [g1]
        have h1' : s'.all_results =
            s.all_results ++ [(process_device env.toCycleEnv s.device_number ef).1] := h1
        rw [h1']
        simp
      · show _ = (runAux ef rest s').consumed + 1
        simp [g2]
      · show _ = seqFrom s.device_number (new'.length + 1)
        have h3' : List.map DeviceResult.device_number new' =
            seqFrom (s.device_number + 1) new'.length := by rw [g3, hdn]
        simp [seqFrom, process_device_number, h3']
      · show rowEvents (evs ++ (runAux ef rest s').events) = _
        rw [rowEvents_append, g4]
        have h4' : rowEvents evs =
            (if (process_device env.toCycleEnv s.device_number ef).1.success then
              [mkRowLine (process_device env.toCycleEnv s.device_number ef).1]
            else []) := h4
        rw [h4']
        cases hs : (process_device env.toCycleEnv s.device_number ef).1.success <;>
          simp [hs]
      · exact fun hw => g5 (hwf hw)

lemma wfFS_emptyFS : wfFS emptyFS :=
  fun _ _ h => Option.noConfusion h

/-! ### Claim theorems: the record store and the summary (C2, C7) -/

/-- C2: over any run, the CSV record store receives exactly one appended
row per successful device, in completion order, and never a row for a
failed device; every file of the resulting file system consists of one
header (written when the file was created) followed by data rows only. -/
theorem C2_rows_iff_success (ef : Bool) (script : List RunCycleEnv) (base : String) :
    rowEvents (run_sequential_flashing ef script base).events =
      ((run_sequential_flashing ef script base).state.all_results.filter
        (fun r => r.success)).map mkRowLine ∧
    ∀ f c, (run_sequential_flashing ef script base).state.fs f = some c →
      ∃ rows, c = CsvLine.header :: rows ∧ rows.all CsvLine.isRow = true := by
  obtain ⟨new, h1, h2, h3, h4, h5⟩ := runAux_spec ef script (initState base)
  constructor
  · unfold run_sequential_flashing
    rw [h4, h1]
    simp [initState]
  · unfold run_sequential_flashing
    exact h5 wfFS_emptyFS

/-- C7: the final summary contains exactly one `DeviceResult` per completed
device cycle, and the `device_number` values form the contiguous ascending
sequence `1, 2, 3, ...`. -/
theorem C7_contiguous_numbering (ef : Bool) (script : List RunCycleEnv) (base : String) :
    (run_sequential_flashing ef script base).state.all_results.length =
      (run_sequential_flashing ef script base).consumed ∧
    (run_sequential_flashing ef script base).state.all_results.map
        DeviceResult.device_number =
      seqFrom 1 (run_sequential_flashing ef script base).state.all_results.length := by
  obtain ⟨new, h1, h2, h3, h4, h5⟩ := runAux_spec ef script (initState base)
  unfold run_sequential_flashing
  rw [h1]
  simp only [initState, List.nil_append]
  exact ⟨h2, h3⟩

/-! ### Claim theorems: disconnect timeout stops the run (C6) -/

/-- If every probe within the poll budget reports the port still ready,
the disconnect wait times out and reports `false`. -/
lemma wait_false_of_all_ready :
    ∀ (n : Nat) (probes : Nat → Bool), (∀ i, i < n → probes i = true) →
      wait_for_device_disconnection probes n = false
  | 0, _, _ => rfl
  | n + 1, probes, h => by
    rw [wait_for_device_disconnection]
    rw [h 0 (Nat.succ_pos n)]
    simpa using
      wait_false_of_all_ready n (fun i => probes (i + 1))
        (fun i hi => h (i + 1) (Nat.succ_lt_succ hi))

/-- Once a cycle's disconnect wait times out, the rest of the script is
never processed. -/
lemma runAux_stop_early (ef : Bool) :
    ∀ (pre : List RunCycleEnv) (s : RunState) (env : RunCycleEnv)
      (post : List RunCycleEnv),
      (∀ e ∈ pre,
        wait_for_device_disconnection e.disconnect_probes disconnectPollBudget = true) →
      wait_for_device_disconnection env.disconnect_probes disconnectPollBudget = false →
      runAux ef (pre ++ env :: post) s = runAux ef (pre ++ [env]) s
  | [], s, env, post, _, henv => by
    simp only [List.nil_append, runAux]
    rcases hstep : run_step ef env s with ⟨s', evs, keep⟩
    have hk : keep = false := by
      have hx := (run_step_spec ef env s).2.1
      rw [hstep] at hx
      simpa [henv] using hx
    subst hk
    rfl
  | e :: pre', s, env, post, hpre, henv => by
    simp only [List.cons_append, runAux]
    rcases hstep : run_step ef e s with ⟨s', evs, keep⟩
    have hk : keep = true := by
      have hx := (run_step_spec ef e s).2.1
      rw [hstep] at hx
      simpa [hpre e (List.mem_cons_self e pre')] using hx
    subst hk
    have hih := runAux_stop_early ef pre' s' env post
      (fun x hx => hpre x (List.mem_cons_of_mem e hx)) henv
    simp [hih]

lemma runAux_consumed_single (ef : Bool) (env : RunCycleEnv) (s : RunState) :
    (runAux ef [env] s).consumed = 1 := by
  simp only [runAux]
  rcases run_step ef env s with ⟨s', evs, keep⟩
  cases keep <;> rfl

lemma runAux_consumed_prefix (ef : Bool) :
    ∀ (pre : List RunCycleEnv) (s : RunState) (env : RunCycleEnv),
      (∀ e ∈ pre,
        wait_for_device_disconnection e.disconnect_probes disconnectPollBudget = true) →
      (runAux ef (pre ++ [env]) s).consumed = pre.length + 1
  | [], s, env, _ => runAux_consumed_single ef env s
  | e :: pre', s, env, hpre => by
    simp only [List.cons_append, runAux]
    rcases hstep : run_step ef e s with ⟨s', evs, keep⟩
    have hk : keep = true := by
      have hx := (run_step_spec ef e s).2.1
      rw [hstep] at hx
      simpa [hpre e (List.mem_cons_self e pre')] using hx
    subst hk
    have := runAux_consumed_prefix ef pre' s' env
      (fun x hx => hpre x (List.mem_cons_of_mem e hx))
    simpa using this

/-- C6: if, after some device cycle, the port never reports not-ready
within the disconnect poll budget, the run stops — the remaining script is
never processed — yet the summary still contains one result per device
processed up to and including that cycle. -/
theorem C6_disconnect_timeout_stops (ef : Bool) (base : String)
    (pre post : List RunCycleEnv) (env : RunCycleEnv)
    (hpre : ∀ e ∈ pre,
      wait_for_device_disconnection e.disconnect_probes disconnectPollBudget = true)
    (henv : ∀ i, i < disconnectPollBudget → env.disconnect_probes i = true) :
    (run_sequential_flashing ef (pre ++ env :: post) base).state.all_results =
      (run_sequential_flashing ef (pre ++ [env]) base).state.all_results ∧
    (run_sequential_flashing ef (pre ++ env :: post) base).state.all_results.length =
      pre.length + 1 := by
  have hw : wait_for_device_disconnection env.disconnect_probes disconnectPollBudget
      = false := wait_false_of_all_ready _ _ henv
  have heq := runAux_stop_early ef pre (initState base) env post hpre hw
  unfold run_sequential_flashing
  rw [heq]
  refine ⟨rfl, ?_⟩
  obtain ⟨new, h1, h2, _, _, _⟩ := runAux_spec ef (pre ++ [env]) (initState base)
  rw [h1]
  have hc := runAux_consumed_prefix ef pre (initState base) env hpre
  have hnil : (initState base).all_results = [] := rfl
  rw [hnil, List.nil_append, h2, hc]

/-- A cycle whose device is never unplugged (all probes ready). -/
def envStuck : RunCycleEnv :=
  { erase_ok := true, flash_ok := true, port_recovered := true,
    serial_data := some sdFull, rename_ok := true,
    disconnect_probes := fun _ => true }

/-- A successful cycle whose device is unplugged immediately. -/
def envDone : RunCycleEnv :=
  { erase_ok := true, flash_ok := true, port_recovered := true,
    serial_data := some sdFull, rename_ok := true,
    disconnect_probes := fun _ => false }

/-- Witness for C6: a stuck disconnect after the first device halts the
run even though another cycle was scripted. -/
theorem C6_disconnect_timeout_stops_witness :
    (run_sequential_flashing true ([] ++ envStuck :: [envDone]) "b").state.all_results =
      (run_sequential_flashing true ([] ++ [envStuck]) "b").state.all_results ∧
    (run_sequential_flashing true ([] ++ envStuck :: [envDone]) "b").state.all_results.length =
      ([] : List RunCycleEnv).length + 1 :=
  C6_disconnect_timeout_stops true "b" [] [envDone] envStuck (by simp) (fun i _ => rfl)

/-- Witness for C2: the file produced by a concrete one-device run starts
with its header followed by data rows. -/
theorem C2_rows_iff_success_witness :
    ∃ rows, [CsvLine.header, CsvLine.row "zap-00ff" hexA64] = CsvLine.header :: rows ∧
      rows.all CsvLine.isRow = true :=
  (C2_rows_iff_success true [envDone] "flash_results").2
    "flash_results_V_1_2_3.csv" [CsvLine.header, CsvLine.row "zap-00ff" hexA64]
    (by decide)

/-! ### Case lemmas for `versionSwitch`, `append_to_csv` and `run_step` -/

lemma versionSwitch_cond_false (ro : Bool) (r : DeviceResult) (s : RunState)
    (h : switchCond r s = false) : versionSwitch ro r s = (s, []) := by
  unfold versionSwitch
  rw [h]
  simp

lemma versionSwitch_cond_none (ro : Bool) (r : DeviceResult) (s : RunState)
    (h : switchCond r s = true) (hfs : s.fs s.csv_output_file = none) :
    versionSwitch ro r s =
      ({ s with
          csv_output_file := newCsvName s.output_file_base r
          output_file_base :=
            s.output_file_base ++ "_V_" ++ versionFileStr r.firmware_version
          firmware_version_found := true }, []) := by
  unfold versionSwitch
  rw [h, hfs]
  rfl

lemma versionSwitch_cond_rename_fail (r : DeviceResult) (s : RunState)
    (c : List CsvLine) (h : switchCond r s = true)
    (hfs : s.fs s.csv_output_file = some c) :
    versionSwitch false r s =
      ({ s with
          csv_output_file := newCsvName s.output_file_base r
          output_file_base :=
            s.output_file_base ++ "_V_" ++ versionFileStr r.firmware_version
          firmware_version_found := true }, []) := by
  unfold versionSwitch
  rw [h, hfs]
  rfl

lemma versionSwitch_cond_rename (r : DeviceResult) (s : RunState)
    (c : List CsvLine) (h : switchCond r s = true)
    (hfs : s.fs s.csv_output_file = some c) :
    versionSwitch true r s =
      ({ s with
          fs := fsUpdate (fsUpdate s.fs s.csv_output_file none)
            (newCsvName s.output_file_base r) (some c)
          csv_output_file := newCsvName s.output_file_base r
          output_file_base :=
            s.output_file_base ++ "_V_" ++ versionFileStr r.firmware_version
          firmware_version_found := true },
       [Event.renamed s.csv_output_file (newCsvName s.output_file_base r) c]) := by
  unfold versionSwitch
  rw [h, hfs]
  rfl

lemma append_to_csv_not_success (r : DeviceResult) (path : String) (fs : FS)
    (hs : r.success = false) : append_to_csv r path fs = (fs, []) := by
  unfold append_to_csv
  rw [hs]
  rfl

lemma append_to_csv_create (r : DeviceResult) (path : String) (fs : FS)
    (hs : r.success = true) (h : fs path = none) :
    append_to_csv r path fs =
      (fsUpdate fs path (some [CsvLine.header, mkRowLine r]),
       [Event.wrote path CsvLine.header, Event.wrote path (mkRowLine r)]) := by
  unfold append_to_csv
  rw [hs, h]
  rfl

lemma append_to_csv_existing (r : DeviceResult) (path : String) (fs : FS)
    (c : List CsvLine) (hs : r.success = true) (h : fs path = some c) :
    append_to_csv r path fs =
      (fsUpdate fs path (some (c ++ [mkRowLine r])),
       [Event.wrote path (mkRowLine r)]) := by
  unfold append_to_csv
  rw [hs, h]
  rfl

lemma append_to_csv_no_renames (r : DeviceResult) (path : String) (fs : FS) :
    (append_to_csv r path fs).2.filter Event.isRenamed = [] := by
  unfold append_to_csv
  repeat' split
  all_goals simp [Event.isRenamed]

/-- A cycle that does not trigger the version-discovery block: no rename
event, the version flag and the CSV path are unchanged, and the record
store file at the current path only grows by data rows. -/
lemma run_step_cond_false (ef : Bool) (env : RunCycleEnv) (s : RunState)
    (h : switchCond (process_device env.toCycleEnv s.device_number ef).1
      { s with all_results :=
          s.all_results ++ [(process_device env.toCycleEnv s.device_number ef).1] } = false) :
    (run_step ef env s).2.1.filter Event.isRenamed = [] ∧
    (run_step ef env s).1.firmware_version_found = s.firmware_version_found ∧
    (run_step ef env s).1.csv_output_file = s.csv_output_file ∧
    (∀ c, s.fs s.csv_output_file = some c →
      ∃ rows, (run_step ef env s).1.fs s.csv_output_file = some (c ++ rows) ∧
        rows.all CsvLine.isRow = true) := by
  have hvs := versionSwitch_cond_false env.rename_ok
    (process_device env.toCycleEnv s.device_number ef).1
    { s with all_results :=
        s.all_results ++ [(process_device env.toCycleEnv s.device_number ef).1] } h
  simp only [run_step, hvs]
  have hnr := append_to_csv_no_renames
    (process_device env.toCycleEnv s.device_number ef).1 s.csv_output_file s.fs
  have hat := append_to_csv_fs_at
    (process_device env.toCycleEnv s.device_number ef).1 s.csv_output_file s.fs
  rcases happ : append_to_csv (process_device env.toCycleEnv s.device_number ef).1
      s.csv_output_file s.fs with ⟨fs2, evs2⟩
  rw [happ] at hnr hat
  simp only [happ]
  cases hk : wait_for_device_disconnection env.disconnect_probes disconnectPollBudget <;>
    simp_all

/-- A cycle that triggers the version-discovery block but performs no
rename (the file does not exist, or the rename fails): no rename event,
but the flag is set and the CSV path switches to the versioned name. -/
lemma run_step_switch_no_rename (ef : Bool) (env : RunCycleEnv) (s : RunState)
    (h : switchCond (process_device env.toCycleEnv s.device_number ef).1
      { s with all_results :=
          s.all_results ++ [(process_device env.toCycleEnv s.device_number ef).1] } = true)
    (hnr : s.fs s.csv_output_file = none ∨ env.rename_ok = false) :
    (run_step ef env s).2.1.filter Event.isRenamed = [] ∧
    (run_step ef env s).1.firmware_version_found = true ∧
    (run_step ef env s).1.csv_output_file =
      newCsvName s.output_file_base (process_device env.toCycleEnv s.device_number ef).1 := by
  have hvs : versionSwitch env.rename_ok
      (process_device env.toCycleEnv s.device_number ef).1
      { s with all_results :=
          s.all_results ++ [(process_device env.toCycleEnv s.device_number ef).1] } =
      ({ s with
          all_results :=
            s.all_results ++ [(process_device env.toCycleEnv s.device_number ef).1]
          csv_output_file :=
            newCsvName s.output_file_base (process_device env.toCycleEnv s.device_number ef).1
          output_file_base := s.output_file_base ++ "_V_" ++
            versionFileStr (process_device env.toCycleEnv s.device_number ef).1.firmware_version
          firmware_version_found := true }, []) := by
    rcases hnr with hfsn | hrof
    · exact versionSwitch_cond_none env.rename_ok _ _ h hfsn
    · rcases hfs : s.fs s.csv_output_file with _ | c
      · exact versionSwitch_cond_none env.rename_ok _ _ h hfs
      · rw [hrof]
        exact versionSwitch_cond_rename_fail _ _ c h hfs
  simp only [run_step, hvs]
  have hnre := append_to_csv_no_renames
    (process_device env.toCycleEnv s.device_number ef).1
    (newCsvName s.output_file_base (process_device env.toCycleEnv s.device_number ef).1) s.fs
  rcases happ : append_to_csv (process_device env.toCycleEnv s.device_number ef).1
      (newCsvName s.output_file_base (process_device env.toCycleEnv s.device_number ef).1)
      s.fs with ⟨fs2, evs2⟩
  rw [happ] at hnre
  simp only [happ]
  cases hk : wait_for_device_disconnection env.disconnect_probes disconnectPollBudget <;>
    simp_all

/-- A cycle that triggers the version-discovery block with an existing
record file and a succeeding rename: exactly one rename event carrying the
old content, followed by the append of this device's row to the renamed
file. -/
lemma run_step_switch_rename (ef : Bool) (env : RunCycleEnv) (s : RunState)
    (c : List CsvLine)
    (h : switchCond (process_device env.toCycleEnv s.device_number ef).1
      { s with all_results :=
          s.all_results ++ [(process_device env.toCycleEnv s.device_number ef).1] } = true)
    (hro : env.rename_ok = true)
    (hfs : s.fs s.csv_output_file = some c) :
    (run_step ef env s).2.1 =
      [Event.renamed s.csv_output_file
        (newCsvName s.output_file_base (process_device env.toCycleEnv s.device_number ef).1) c,
       Event.wrote
        (newCsvName s.output_file_base (process_device env.toCycleEnv s.device_number ef).1)
        (mkRowLine (process_device env.toCycleEnv s.device_number ef).1)] ∧
    (run_step ef env s).1.firmware_version_found = true ∧
    (run_step ef env s).1.csv_output_file =
      newCsvName s.output_file_base (process_device env.toCycleEnv s.device_number ef).1 ∧
    (run_step ef env s).1.fs
        (newCsvName s.output_file_base (process_device env.toCycleEnv s.device_number ef).1) =
      some (c ++ [mkRowLine (process_device env.toCycleEnv s.device_number ef).1]) := by
  have hsucc : (process_device env.toCycleEnv s.device_number ef).1.success = true := by
    simp only [switchCond, Bool.and_eq_true] at h
    exact h.1.1
  have hvs := versionSwitch_cond_rename
    (process_device env.toCycleEnv s.device_number ef).1
    { s with all_results :=
        s.all_results ++ [(process_device env.toCycleEnv s.device_number ef).1] } c h hfs
  rw [← hro] at hvs
  simp only [run_step, hvs]
  have hlook : (fsUpdate (fsUpdate s.fs s.csv_output_file none)
      (newCsvName s.output_file_base (process_device env.toCycleEnv s.device_number ef).1)
      (some c))
      (newCsvName s.output_file_base (process_device env.toCycleEnv s.device_number ef).1) =
      some c := by
    simp [fsUpdate]
  have happ := append_to_csv_existing
    (process_device env.toCycleEnv s.device_number ef).1
    (newCsvName s.output_file_base (process_device env.toCycleEnv s.device_number ef).1)
    (fsUpdate (fsUpdate s.fs s.csv_output_file none)
      (newCsvName s.output_file_base (process_device env.toCycleEnv s.device_number ef).1)
      (some c))
    c hsucc hlook
  simp only [happ]
  cases hk : wait_for_device_disconnection env.disconnect_probes disconnectPollBudget <;>
    simp_all [fsUpdate]

lemma renamed_not_mem_of_filter_nil (evs : List Event)
    (h : evs.filter Event.isRenamed = []) (o nn : String) (c : List CsvLine) :
    Event.renamed o nn c ∉ evs := by
  intro hm
  have hx : Event.renamed o nn c ∈ evs.filter Event.isRenamed :=
    List.mem_filter.mpr ⟨hm, by simp [Event.isRenamed]⟩
  rw [h] at hx
  simp at hx

/-- After the version flag is set, the remainder of the run performs no
rename, keeps writing to the same CSV path, and only appends data rows to
the file at that path. -/
lemma runAux_flag_true (ef : Bool) (script : List RunCycleEnv) :
    ∀ s : RunState, s.firmware_version_found = true →
      (runAux ef script s).events.filter Event.isRenamed = [] ∧
      (runAux ef script s).state.csv_output_file = s.csv_output_file ∧
      (runAux ef script s).state.firmware_version_found = true ∧
      (∀ c, s.fs s.csv_output_file = some c →
        ∃ rest, (runAux ef script s).state.fs s.csv_output_file = some (c ++ rest) ∧
          rest.all CsvLine.isRow = true) := by
  induction script with
  | nil =>
    intro s h
    exact ⟨rfl, rfl, h, fun c hc => ⟨[], by simp [runAux, hc]⟩⟩
  | cons env rest ih =>
    intro s h
    have hcond : switchCond (process_device env.toCycleEnv s.device_number ef).1
        { s with all_results :=
            s.all_results ++ [(process_device env.toCycleEnv s.device_number ef).1] } =
        false := by
      simp [switchCond, h]
    obtain ⟨f1, f2, f3, f4⟩ := run_step_cond_false ef env s hcond
    simp only [runAux]
    rcases hstep : run_step ef env s with ⟨s', evs, keep⟩
    rw [hstep] at f1 f2 f3 f4
    simp only [hstep]
    cases keep with
    | false => exact ⟨f1, f3, f2.trans h, f4⟩
    | true =>
      obtain ⟨g1, g2, g3, g4⟩ := ih s' (f2.trans h)
      refine ⟨?_, ?_, g3, ?_⟩
      · show (evs ++ (runAux ef rest s').events).filter Event.isRenamed = []
        rw [List.filter_append]
        rw [show (evs.filter Event.isRenamed) = [] from f1, g1]
        rfl
      · show (runAux ef rest s').state.csv_output_file = s.csv_output_file
        rw [g2]
        exact f3
      · intro c hc
        obtain ⟨rows0, h0, h0a⟩ := f4 c hc
        have hc' : s'.fs s'.csv_output_file = some (c ++ rows0) := by
          rw [f3]
          exact h0
        obtain ⟨rest1, h1', h1a⟩ := g4 (c ++ rows0) hc'
        refine ⟨rows0 ++ rest1, ?_, ?_⟩
        · show (runAux ef rest s').state.fs s.csv_output_file = _
          rw [← f3, h1', List.append_assoc]
        · simp [List.all_append, h0a, h1a]

/-- The outcome of a run on `env :: rest` is the step's events followed by
the continuation (when the disconnect wait succeeded), or the step's
events and state alone (when it timed out). -/
lemma runAux_cons_out (ef : Bool) (env : RunCycleEnv) (rest : List RunCycleEnv)
    (s : RunState) :
    ((runAux ef (env :: rest) s).events =
        (run_step ef env s).2.1 ++ (runAux ef rest (run_step ef env s).1).events ∧
      (runAux ef (env :: rest) s).state =
        (runAux ef rest (run_step ef env s).1).state) ∨
    ((runAux ef (env :: rest) s).events = (run_step ef env s).2.1 ∧
      (runAux ef (env :: rest) s).state = (run_step ef env s).1) := by
  simp only [runAux]
  rcases hstep : run_step ef env s with ⟨s', evs, keep⟩
  simp only [hstep]
  cases keep
  · exact Or.inr ⟨rfl, rfl⟩
  · exact Or.inl ⟨rfl, rfl⟩

/-- Starting with the version flag clear, the whole run performs at most
one rename, and after a rename all subsequent rows land in the renamed
file, whose content extends the renamed content by data rows only. -/
lemma runAux_flag_false (ef : Bool) (script : List RunCycleEnv) :
    ∀ s : RunState, s.firmware_version_found = false →
      ((runAux ef script s).events.filter Event.isRenamed).length ≤ 1 ∧
      (∀ o nn c, Event.renamed o nn c ∈ (runAux ef script s).events →
        (runAux ef script s).state.csv_output_file = nn ∧
        ∃ rest, (runAux ef script s).state.fs nn = some (c ++ rest) ∧
          rest.all CsvLine.isRow = true) := by
  induction script with
  | nil =>
    intro s h
    constructor
    · simp [runAux]
    · intro o nn c hm
      simp [runAux] at hm
  | cons env rest ih =>
    intro s h
    cases hcnd : switchCond (process_device env.toCycleEnv s.device_number ef).1
        { s with all_results :=
            s.all_results ++ [(process_device env.toCycleEnv s.device_number ef).1] } with
    | false =>
      obtain ⟨f1, f2, f3, f4⟩ := run_step_cond_false ef env s hcnd
      have hff' : (run_step ef env s).1.firmware_version_found = false := f2.trans h
      rcases runAux_cons_out ef env rest s with ⟨hev, hst⟩ | ⟨hev, hst⟩
      · obtain ⟨g1, g2⟩ := ih (run_step ef env s).1 hff'
        constructor
        · rw [hev, List.filter_append, f1]
          simpa using g1
        · intro o nn c hm
          rw [hev] at hm
          rcases List.mem_append.mp hm with hm1 | hm2
          · exact absurd hm1 (renamed_not_mem_of_filter_nil _ f1 _ _ _)
          · rw [hst]
            exact g2 o nn c hm2
      · constructor
        · rw [hev, f1]
          simp
        · intro o nn c hm
          rw [hev] at hm
          exact absurd hm (renamed_not_mem_of_filter_nil _ f1 _ _ _)
    | true =>
      by_cases hRE : env.rename_ok = true ∧ ∃ c0, s.fs s.csv_output_file = some c0
      · obtain ⟨hro, c0, hfs⟩ := hRE
        obtain ⟨f1, f2, f3, f4⟩ := run_step_switch_rename ef env s c0 hcnd hro hfs
        rcases runAux_cons_out ef env rest s with ⟨hev, hst⟩ | ⟨hev, hst⟩
        · obtain ⟨g1, g2, g3, g4⟩ := runAux_flag_true ef rest (run_step ef env s).1 f2
          constructor
          · rw [hev, List.filter_append, f1, g1]
            simp [Event.isRenamed]
          · intro o nn c hm
            rw [hev] at hm
            rcases List.mem_append.mp hm with hm1 | hm2
            · rw [f1] at hm1
              simp only [List.mem_cons, List.mem_singleton] at hm1
              rcases hm1 with hx | hx
              · obtain ⟨ho, hn, hc⟩ := Event.renamed.inj hx
                subst ho
                subst hn
                rw [hst, hc]
                constructor
                · rw [g2, f3]
                · have hfs' : (run_step ef env s).1.fs
                      ((run_step ef env s).1.csv_output_file) =
                      some (c0 ++
                        [mkRowLine (process_device env.toCycleEnv s.device_number ef).1]) := by
                    rw [f3]
                    exact f4
                  obtain ⟨rest1, h1', h1a⟩ := g4 _ hfs'
                  refine ⟨[mkRowLine (process_device env.toCycleEnv s.device_number ef).1]
                    ++ rest1, ?_, ?_⟩
                  · rw [← f3, h1', List.append_assoc]
                  · simp [List.all_append, h1a, mkRowLine, CsvLine.isRow]
              · exact absurd hx (by simp)
            · exact absurd hm2 (renamed_not_mem_of_filter_nil _ g1 _ _ _)
        · constructor
          · rw [hev, f1]
            simp [Event.isRenamed]
          · intro o nn c hm
            rw [hev, f1] at hm
            simp only [List.mem_cons, List.mem_singleton] at hm
            rcases hm with hx | hx
            · obtain ⟨ho, hn, hc⟩ := Event.renamed.inj hx
              subst ho
              subst hn
              rw [hst, hc]
              refine ⟨f3, [mkRowLine (process_device env.toCycleEnv s.device_number ef).1],
                f4, ?_⟩
              simp [mkRowLine, CsvLine.isRow]
            · exact absurd hx (by simp)
      · have hOr : s.fs s.csv_output_file = none ∨ env.rename_ok = false := by
          rcases hfs : s.fs s.csv_output_file with _ | c0
          · exact Or.inl rfl
          · cases hro : env.rename_ok
            · exact Or.inr rfl
            · exact absurd ⟨hro, c0, hfs⟩ hRE
        obtain ⟨f1, f2, f3⟩ := run_step_switch_no_rename ef env s hcnd hOr
        rcases runAux_cons_out ef env rest s with ⟨hev, hst⟩ | ⟨hev, hst⟩
        · obtain ⟨g1, _, _, _⟩ := runAux_flag_true ef rest (run_step ef env s).1 f2
          constructor
          · rw [hev, List.filter_append, f1, g1]
            simp
          · intro o nn c hm
            rw [hev] at hm
            rcases List.mem_append.mp hm with hm1 | hm2
            · exact absurd hm1 (renamed_not_mem_of_filter_nil _ f1 _ _ _)
            · exact absurd hm2 (renamed_not_mem_of_filter_nil _ g1 _ _ _)
        · constructor
          · rw [hev, f1]
            simp
          · intro o nn c hm
            rw [hev] at hm
            exact absurd hm (renamed_not_mem_of_filter_nil _ f1 _ _ _)

/-! ### Claim theorems: record-store rename (C8, C10) -/

/-- C8 (amended): at most one record-store rename occurs per run; when a
rename occurred, its recorded content is preserved as a prefix of the
renamed file, which only gains data rows afterwards, and every subsequent
successful row is appended to the renamed path (`csv_output_file` stays at
the new name); moreover the first successful result carrying a firmware
version triggers the rename exactly when the record-store file already
exists at that moment and the rename succeeds. -/
theorem C8_rename_semantics (ef : Bool) (script : List RunCycleEnv) (base : String) :
    ((run_sequential_flashing ef script base).events.filter Event.isRenamed).length ≤ 1 ∧
    (∀ o nn c, Event.renamed o nn c ∈ (run_sequential_flashing ef script base).events →
      (run_sequential_flashing ef script base).state.csv_output_file = nn ∧
      ∃ rest, (run_sequential_flashing ef script base).state.fs nn = some (c ++ rest) ∧
        rest.all CsvLine.isRow = true) ∧
    (∀ (env : RunCycleEnv) (s : RunState) (c : List CsvLine),
      s.firmware_version_found = false → env.rename_ok = true →
      (process_device env.toCycleEnv s.device_number ef).1.success = true →
      truthy (process_device env.toCycleEnv s.device_number ef).1.firmware_version = true →
      s.fs s.csv_output_file = some c →
      (run_step ef env s).2.1.filter Event.isRenamed =
        [Event.renamed s.csv_output_file
          (newCsvName s.output_file_base
            (process_device env.toCycleEnv s.device_number ef).1) c]) := by
  obtain ⟨a1, a2⟩ := runAux_flag_false ef script (initState base) rfl
  refine ⟨a1, a2, ?_⟩
  intro env s c hff hro hs hv hfs
  have hcnd : switchCond (process_device env.toCycleEnv s.device_number ef).1
      { s with all_results :=
          s.all_results ++ [(process_device env.toCycleEnv s.device_number ef).1] } =
      true := by
    simp [switchCond, hs, hff, hv]
  obtain ⟨f1, _, _, _⟩ := run_step_switch_rename ef env s c hcnd hro hfs
  rw [f1]
  simp [Event.isRenamed]

/-- C8 (counterexample to the claim as stated): when the first success
carrying a firmware version is also the first success of the run, the
record-store file does not exist yet, so no rename happens at all — only
the output path switches — contradicting "the first successful result
carrying a firmware_version value triggers a rename". -/
theorem C8_counterexample :
    ((run_sequential_flashing false [envDone] "flash_results").state.all_results.map
      (fun r => (r.success, r.firmware_version)) = [(true, some "1.2.3")]) ∧
    (run_sequential_flashing false [envDone] "flash_results").events.filter
      Event.isRenamed = [] ∧
    (run_sequential_flashing false [envDone] "flash_results").state.fs
      "flash_results.csv" = none ∧
    (run_sequential_flashing false [envDone] "flash_results").state.fs
      "flash_results_V_1_2_3.csv" =
      some [CsvLine.header, CsvLine.row "zap-00ff" hexA64] := by
  refine ⟨by decide, by decide, by decide, by decide⟩

/-- A record-store file already holding one row, as left by an earlier
versionless success. -/
def c10Fs : FS :=
  fsUpdate emptyFS "base.csv" (some [CsvLine.header, CsvLine.row "zap-0001" "ffff"])

def c10State : RunState :=
  { device_number := 2, all_results := [], output_file_base := "base",
    csv_output_file := "base.csv", firmware_version_found := false, fs := c10Fs }

/-- Witness for C8 (amended): a concrete cycle where the record file
exists and the rename succeeds produces exactly one rename event carrying
the old content. -/
theorem C8_rename_semantics_witness :
    (run_step false envDone c10State).2.1.filter Event.isRenamed =
      [Event.renamed "base.csv"
        (newCsvName "base" (process_device envDone.toCycleEnv 2 false).1)
        [CsvLine.header, CsvLine.row "zap-0001" "ffff"]] :=
  (C8_rename_semantics false [] "x").2.2 envDone c10State
    [CsvLine.header, CsvLine.row "zap-0001" "ffff"]
    rfl rfl (by decide) (by decide) (by decide)

/-- C10: if the rename fails, the sink still switches future appends to
the versioned path: this device's row goes to a freshly created file with
a new header at the new path, while the rows written before stay only in
the old, un-renamed file, and no rename event is recorded. -/
theorem C10_rename_failure_splits (ef : Bool) (env : RunCycleEnv) (s : RunState)
    (oldC : List CsvLine)
    (hff : s.firmware_version_found = false)
    (hrn : env.rename_ok = false)
    (hs : (process_device env.toCycleEnv s.device_number ef).1.success = true)
    (hv : truthy (process_device env.toCycleEnv s.device_number ef).1.firmware_version = true)
    (hold : s.fs s.csv_output_file = some oldC)
    (hnew : s.fs (newCsvName s.output_file_base
        (process_device env.toCycleEnv s.device_number ef).1) = none) :
    (run_step ef env s).1.csv_output_file =
      newCsvName s.output_file_base (process_device env.toCycleEnv s.device_number ef).1 ∧
    (run_step ef env s).1.fs s.csv_output_file = some oldC ∧
    (run_step ef env s).1.fs (newCsvName s.output_file_base
        (process_device env.toCycleEnv s.device_number ef).1) =
      some [CsvLine.header, mkRowLine (process_device env.toCycleEnv s.device_number ef).1] ∧
    (run_step ef env s).2.1.filter Event.isRenamed = [] := by
  have hne : ¬(s.csv_output_file =
      newCsvName s.output_file_base (process_device env.toCycleEnv s.device_number ef).1) := by
    intro he
    rw [he, hnew] at hold
    exact Option.noConfusion hold
  have hcnd : switchCond (process_device env.toCycleEnv s.device_number ef).1
      { s with all_results :=
          s.all_results ++ [(process_device env.toCycleEnv s.device_number ef).1] } =
      true := by
    simp [switchCond, hs, hff, hv]
  have hvs := versionSwitch_cond_rename_fail
    (process_device env.toCycleEnv s.device_number ef).1
    { s with all_results :=
        s.all_results ++ [(process_device env.toCycleEnv s.device_number ef).1] }
    oldC hcnd hold
  rw [← hrn] at hvs
  simp only [run_step, hvs]
  have happ := append_to_csv_create (process_device env.toCycleEnv s.device_number ef).1
    (newCsvName s.output_file_base (process_device env.toCycleEnv s.device_number ef).1)
    s.fs hs hnew
  simp only [happ]
  cases hk : wait_for_device_disconnection env.disconnect_probes disconnectPollBudget <;>
    simp_all [fsUpdate, Event.isRenamed]

/-- The C10 cycle: the device succeeds with a firmware version but the
rename fails. -/
def envRenameFail : RunCycleEnv :=
  { envDone with rename_ok := false }

/-- Witness for C10 at a concrete state whose record file holds one row. -/
theorem C10_rename_failure_splits_witness :
    (run_step false envRenameFail c10State).1.csv_output_file =
      newCsvName "base" (process_device envRenameFail.toCycleEnv 2 false).1 ∧
    (run_step false envRenameFail c10State).1.fs "base.csv" =
      some [CsvLine.header, CsvLine.row "zap-0001" "ffff"] ∧
    (run_step false envRenameFail c10State).1.fs
      (newCsvName "base" (process_device envRenameFail.toCycleEnv 2 false).1) =
      some [CsvLine.header, mkRowLine (process_device envRenameFail.toCycleEnv 2 false).1] ∧
    (run_step false envRenameFail c10State).2.1.filter Event.isRenamed = [] :=
  C10_rename_failure_splits false envRenameFail c10State
    [CsvLine.header, CsvLine.row "zap-0001" "ffff"]
    rfl rfl (by decide) (by decide) (by decide) (by decide)

end ZapFlasher